import Mathlib

/-!
Shallow embedding of the training orchestration core of
`trains/tagger.py` (indonesian-image-captioning).

Machine floats are modelled by `ℚ`; model parameters, batches and the
numeric collaborators (encoder forward pass, BCE loss, binary accuracy,
gradient step) are abstract, supplied through explicit environments, as the
spec treats them as black-box capabilities.  Helpers that live in `utils/`
(not part of the provided source) are modelled from the spec and marked so.
-/

namespace Tagger

/-- Stand-in for Python floats. -/
abbrev R := ℚ

/-- Opaque error value carried by a raised exception. -/
abbrev Err := ℕ

/-- Modelled from the spec: `AverageMeter` (`utils/metric.py`, not in
`src/`) keeps a running weighted mean of a streamed scalar:
state `{last value, sum of weighted values, sum of weights, average}`. -/
structure AverageMeter where
  val : R
  sum : R
  count : R
  avg : R
deriving DecidableEq

/-- Modelled from the spec: a fresh accumulator, all fields zero. -/
def AverageMeter.init : AverageMeter := ⟨0, 0, 0, 0⟩

/-- Modelled from the spec: `update(value, n)` records one observation of
weight `n`; `average = sum_of_weighted_values / sum_of_weights`. -/
def AverageMeter.update (m : AverageMeter) (value : R) (n : R) : AverageMeter :=
  let sum := m.sum + value * n
  let count := m.count + n
  { val := value, sum := sum, count := count, avg := sum / count }

/-- One batch from a data loader: an opaque pair `(imgs, tags)`. -/
structure Batch where
  imgs : R
  tags : R
deriving DecidableEq

/-- The numeric collaborators used by one pass of `train`/`validate`:
`forward mode params imgs` is `encoder(imgs)` (mode `true` after
`encoder.train()`, `false` after `encoder.eval()`), `lossFn` is
`criterion(scores, targets)`, `accFn` is `binary_accuracy(scores, targets)`,
and `gradStep` is the net effect on the parameters of
`zero_grad; loss.backward(); clip_gradient(optimizer, grad_clip); optimizer.step()`
for one batch. -/
structure Numerics (P : Type) where
  forward : Bool → P → R → R
  lossFn : R → R → R
  accFn : R → R → R
  gradStep : P → Batch → P

/-- State threaded through one pass over a loader: the encoder parameters
and the two fresh accumulators (`losses`, `accs`) created at pass start. -/
structure PassState (P : Type) where
  encoder : P
  losses : AverageMeter
  accs : AverageMeter

/-- Body of the batch loop of `validate` (`tagger.py`): forward prop,
loss, then `losses.update(loss.item())` and `accs.update(acc)` — both with
the default weight 1.  Under `torch.no_grad()` no gradient is computed and
no optimizer step runs, so the encoder field is left untouched. -/
def validateBatch {P : Type} (nm : Numerics P) (s : PassState P) (b : Batch) :
    PassState P :=
  let scores := nm.forward false s.encoder b.imgs
  let loss := nm.lossFn scores b.tags
  let acc := nm.accFn scores b.tags
  { s with losses := s.losses.update loss 1, accs := s.accs.update acc 1 }

/-- `validate(val_loader, encoder, criterion)`: `encoder.eval()`, fresh
meters, then the batch loop; returns the final pass state (the Python
function returns `accs`). -/
def validate {P : Type} (nm : Numerics P) (encoder : P) (batches : List Batch) :
    PassState P :=
  batches.foldl (validateBatch nm) ⟨encoder, AverageMeter.init, AverageMeter.init⟩

/-- Body of the batch loop of `train` (`tagger.py`): forward prop from the
current parameters, loss, back-prop + clip + optimizer step (the
parameter update, abstracted as `gradStep`), then the two weight-1 meter
updates computed from the pre-step scores. -/
def trainBatch {P : Type} (nm : Numerics P) (s : PassState P) (b : Batch) :
    PassState P :=
  let scores := nm.forward true s.encoder b.imgs
  let loss := nm.lossFn scores b.tags
  let encoder := nm.gradStep s.encoder b
  let acc := nm.accFn scores b.tags
  { encoder := encoder,
    losses := s.losses.update loss 1,
    accs := s.accs.update acc 1 }

/-- `train(train_loader, encoder, criterion, encoder_optimizer, epoch)`:
`encoder.train()`, fresh meters, then the batch loop. -/
def train {P : Type} (nm : Numerics P) (encoder : P) (batches : List Batch) :
    PassState P :=
  batches.foldl (trainBatch nm) ⟨encoder, AverageMeter.init, AverageMeter.init⟩

/-- The per-batch accuracy values observed during `train`, in order:
each is computed from the parameters as they stand when that batch's
forward pass runs. -/
def trainAccValues {P : Type} (nm : Numerics P) : P → List Batch → List R
  | _, [] => []
  | p, b :: bs =>
    nm.accFn (nm.forward true p b.imgs) b.tags ::
      trainAccValues nm (nm.gradStep p b) bs

/-- The per-batch loss values observed during `train`, in order. -/
def trainLossValues {P : Type} (nm : Numerics P) : P → List Batch → List R
  | _, [] => []
  | p, b :: bs =>
    nm.lossFn (nm.forward true p b.imgs) b.tags ::
      trainLossValues nm (nm.gradStep p b) bs

/-- The per-batch accuracy values observed during `validate` (the encoder
is fixed for the whole pass). -/
def valAccValues {P : Type} (nm : Numerics P) (p : P) (bs : List Batch) : List R :=
  bs.map fun b => nm.accFn (nm.forward false p b.imgs) b.tags

/-- The per-batch loss values observed during `validate`. -/
def valLossValues {P : Type} (nm : Numerics P) (p : P) (bs : List Batch) : List R :=
  bs.map fun b => nm.lossFn (nm.forward false p b.imgs) b.tags

/-! ## The epoch loop of `main` -/

/-- The optimizer: per-parameter-group learning rates plus an opaque
internal state (momentum buffers, step counts, …). -/
structure Optimizer where
  lrs : List R
  internal : ℕ
deriving DecidableEq

/-- Modelled from the spec: `adjust_learning_rate(optimizer, factor)`
(`utils/optimizer.py`, not in `src/`) multiplies every parameter group's
learning rate by `factor` in place, touching nothing else. -/
def adjust_learning_rate (opt : Optimizer) (factor : R) : Optimizer :=
  { opt with lrs := opt.lrs.map (· * factor) }

/-- Module-level configuration constant `start_epoch = 0`. -/
def start_epoch : ℕ := 0

/-- Module-level configuration constant `epochs = 10`. -/
def epochs : ℕ := 10

/-- Module-level configuration constant `adjust_lr_after_epoch = 4`. -/
def adjust_lr_after_epoch : ℕ := 4

/-- Module-level configuration constant `encoder_lr = 1e-4`. -/
def encoder_lr : R := 1 / 10000

/-- Module-level initial value `best_acc = 0.`. -/
def best_acc_initial : R := 0

/-- `torch.optim.Adam(params=..., lr=encoder_lr)`: a freshly constructed
optimizer with one parameter group at the given rate and fresh internal
state. -/
def freshAdam (lr : R) : Optimizer := { lrs := [lr], internal := 0 }

/-- The record written by `save_tagger_checkpoint(data_name, epoch,
epochs_since_improvement, encoder, encoder_optimizer, acc, is_best)` and
read back by `torch.load`; field layout from the spec's checkpoint file
layout (`{epoch, epochs_since_improvement, accuracy, model, optimizer}`)
plus the `is_best` flag that routes the best slot. -/
structure Checkpoint (P : Type) where
  epoch : ℕ
  epochs_since_improvement : ℕ
  accuracy : R
  encoder : P
  encoder_optimizer : Optimizer
  is_best : Bool
deriving DecidableEq

/-- Modelled from the spec: the checkpoint store's two logical slots,
"latest" (always overwritten) and "best" (overwritten only on `is_best`),
named from the dataset identifier with a `BEST` suffix for the best slot. -/
structure Store (P : Type) where
  latest : Option (Checkpoint P)
  best : Option (Checkpoint P)

/-- Modelled from the spec: `save(checkpoint)` always writes the latest
slot and writes the best slot iff `checkpoint.is_best`. -/
def Store.save {P : Type} (st : Store P) (c : Checkpoint P) : Store P :=
  { latest := some c, best := if c.is_best then some c else st.best }

/-- State of `main`'s epoch loop.  `saved` is the (ghost) log of
checkpoints written so far, in order; `decays` logs the epochs at which
`adjust_learning_rate` was invoked; `trained` logs, for each epoch whose
train pass ran, the pair (epoch, value of `epochs_since_improvement` at
the top of that iteration). -/
structure LoopState (P : Type) where
  epochs_since_improvement : ℕ
  best_acc : R
  encoder : P
  encoder_optimizer : Optimizer
  saved : List (Checkpoint P)
  decays : List ℕ
  trained : List (ℕ × ℕ)

/-- The train and validate passes of one epoch as the loop sees them:
`trainPass e params optimizer` runs one training epoch (raising is
modelled by `Except.error`), `valAcc e params` runs one validation epoch
and yields `acc.avg`. -/
structure EpochEnv (P : Type) where
  trainPass : ℕ → P → Optimizer → Except Err (P × Optimizer)
  valAcc : ℕ → P → Except Err R

/-- The decay check at the top of an epoch iteration (`tagger.py`):
`if epochs_since_improvement > 0 and epochs_since_improvement %
adjust_lr_after_epoch == 0: adjust_learning_rate(encoder_optimizer, 0.8)`. -/
def decayPhase {P : Type} (e : ℕ) (s : LoopState P) : LoopState P :=
  if 0 < s.epochs_since_improvement ∧
      s.epochs_since_improvement % adjust_lr_after_epoch = 0 then
    { s with encoder_optimizer := adjust_learning_rate s.encoder_optimizer (0.8 : R),
             decays := s.decays ++ [e] }
  else s

/-- Loop state right after the train pass of epoch `e` handed back updated
parameters and optimizer (the ghost `trained` log records the epoch and the
counter value that stood at the top of the iteration). -/
def afterTrain {P : Type} (e : ℕ) (s1 : LoopState P) (p : P) (opt : Optimizer) :
    LoopState P :=
  { s1 with encoder := p, encoder_optimizer := opt,
            trained := s1.trained ++ [(e, s1.epochs_since_improvement)] }

/-- End of epoch `e` once the validate pass returned accuracy average `a`:
the improvement decision `is_best = acc.avg > best_acc`,
`best_acc = max(acc.avg, best_acc)`, counter reset on improvement and
incremented by one otherwise, then `save_tagger_checkpoint(data_name,
epoch, epochs_since_improvement, encoder, encoder_optimizer, acc, is_best)`
appended to the ghost save log. -/
def afterValidate {P : Type} (e : ℕ) (s2 : LoopState P) (a : R) : LoopState P :=
  let is_best : Bool := decide (s2.best_acc < a)
  let best := max a s2.best_acc
  let counter := if is_best then 0 else s2.epochs_since_improvement + 1
  let ck : Checkpoint P :=
    { epoch := e, epochs_since_improvement := counter, accuracy := a,
      encoder := s2.encoder, encoder_optimizer := s2.encoder_optimizer,
      is_best := is_best }
  { s2 with epochs_since_improvement := counter, best_acc := best,
            saved := s2.saved ++ [ck] }

/-- The body of one epoch iteration after the early-stop check: decay
check, train pass, validate pass, improvement decision, checkpoint save.
An exception raised by either pass aborts the epoch and carries the loop
state as it stood at the raise (in particular no checkpoint is written for
the epoch). -/
def epochStep {P : Type} (env : EpochEnv P) (e : ℕ) (s : LoopState P) :
    Except (Err × LoopState P) (LoopState P) :=
  let s1 := decayPhase e s
  match env.trainPass e s1.encoder s1.encoder_optimizer with
  | .error err => .error (err, s1)
  | .ok (p, opt) =>
    let s2 := afterTrain e s1 p opt
    match env.valAcc e p with
    | .error err => .error (err, s2)
    | .ok accAvg => .ok (afterValidate e s2 accAvg)

/-- `for epoch in range(start_epoch, epochs)` with the early-stop check
`if epochs_since_improvement == 20: break` at the top of each iteration. -/
def runEpochs {P : Type} (env : EpochEnv P) :
    List ℕ → LoopState P → Except (Err × LoopState P) (LoopState P)
  | [], s => .ok s
  | e :: rest, s =>
    if s.epochs_since_improvement = 20 then .ok s
    else
      match epochStep env e s with
      | .error f => .error f
      | .ok s' => runEpochs env rest s'

/-- The epoch index list `range(start, epochs)`. -/
def epochList (start : ℕ) : List ℕ := List.range' start (epochs - start)

/-- Fresh initialization (`checkpoint is None` branch of `main`): counter
0, `best_acc = 0.`, a fresh encoder and a fresh Adam optimizer, nothing
saved yet. -/
def freshInit (P : Type) (p0 : P) : LoopState P :=
  { epochs_since_improvement := 0, best_acc := best_acc_initial,
    encoder := p0, encoder_optimizer := freshAdam encoder_lr,
    saved := [], decays := [], trained := [] }

/-- Resume initialization (`checkpoint is not None` branch of `main`),
returning the start epoch together with the loop state.  Mirrors the
source line by line: `start_epoch = checkpoint['epoch'] + 1`; counter and
`best_acc` copied from the record; encoder and optimizer taken from the
record; `encoder.fine_tune(...)` (toggles `requires_grad` only, parameter
values untouched); then `encoder_optimizer` is reassigned to a freshly
constructed `torch.optim.Adam(..., lr=encoder_lr)`, shadowing the loaded
optimizer. -/
def resumeInit {P : Type} (ck : Checkpoint P) : ℕ × LoopState P :=
  let start := ck.epoch + 1
  let counter := ck.epochs_since_improvement
  let best := ck.accuracy
  let encoder := ck.encoder
  let encoder_optimizer := ck.encoder_optimizer
  let encoder_optimizer := freshAdam encoder_lr
  (start,
   { epochs_since_improvement := counter, best_acc := best,
     encoder := encoder, encoder_optimizer := encoder_optimizer,
     saved := [], decays := [], trained := [] })

/-- `main` on a fresh start: the epoch loop over `range(start_epoch,
epochs)` from the fresh state. -/
def mainFresh (P : Type) (p0 : P) (env : EpochEnv P) :
    Except (Err × LoopState P) (LoopState P) :=
  runEpochs env (epochList start_epoch) (freshInit P p0)

/-- `main` resuming from a checkpoint: the epoch loop over
`range(checkpoint_epoch + 1, epochs)` from the restored state. -/
def mainResume {P : Type} (ck : Checkpoint P) (env : EpochEnv P) :
    Except (Err × LoopState P) (LoopState P) :=
  let (start, s) := resumeInit ck
  runEpochs env (epochList start) s

/-- Accuracies written to the best slot, in write order: the spec-modelled
store writes the best slot exactly for the `is_best` checkpoints. -/
def bestSlotAccs {P : Type} (l : List (Checkpoint P)) : List R :=
  (l.filter (·.is_best)).map (·.accuracy)

/-- A test-harness epoch environment over trivial parameters: the train
pass succeeds without changing anything and epoch `e`'s validation
accuracy average is `a e`. -/
def constEnv (a : ℕ → R) : EpochEnv Unit :=
  { trainPass := fun _ p opt => .ok (p, opt), valAcc := fun e _ => .ok (a e) }

/-- Projects the success state out of a finished run (default for the
error case). -/
def okState {P : Type} (x : Except (Err × LoopState P) (LoopState P))
    (d : LoopState P) : LoopState P :=
  match x with
  | .ok s => s
  | .error _ => d

/-- Harness: every epoch validates at accuracy average 0. -/
def envZero : EpochEnv Unit := constEnv fun _ => 0

/-- Harness: epochs 0, 1, 2 validate at accuracy averages 1, 2, 3, so
every epoch improves on the last. -/
def envRising : EpochEnv Unit :=
  constEnv fun e => match e with | 0 => 1 | 1 => 2 | _ => 3

/-- Harness: the train pass of every epoch raises (error code 3). -/
def envFailTrain : EpochEnv Unit :=
  { trainPass := fun _ _ _ => .error 3, valAcc := fun _ _ => .ok 0 }

/-- Harness: train passes succeed, every validate pass raises (code 7). -/
def envFailVal : EpochEnv Unit :=
  { trainPass := fun _ p opt => .ok (p, opt), valAcc := fun _ _ => .error 7 }

/-- Harness: a loop state whose stagnation counter sits at the patience
limit. -/
def stopState : LoopState Unit :=
  { epochs_since_improvement := 20, best_acc := 0, encoder := (),
    encoder_optimizer := freshAdam encoder_lr, saved := [], decays := [],
    trained := [] }

/-- Harness: final state of a fresh one-epoch run that validates at 0. -/
def runZeroOne : LoopState Unit :=
  okState (runEpochs envZero [0] (freshInit Unit ())) (freshInit Unit ())

/-- Harness: final state of a fresh three-epoch run that validates at 0. -/
def runZeroThree : LoopState Unit :=
  okState (runEpochs envZero [0, 1, 2] (freshInit Unit ())) (freshInit Unit ())

/-- Harness: final state of the full fresh ten-epoch run that validates at
0 every epoch (stagnation counter climbs 1..10, decay fires at 4 and 8). -/
def runZeroFull : LoopState Unit :=
  okState (runEpochs envZero (epochList start_epoch) (freshInit Unit ()))
    (freshInit Unit ())

/-- Harness: final state of a fresh three-epoch run whose accuracy rises
every epoch. -/
def runRisingThree : LoopState Unit :=
  okState (runEpochs envRising [0, 1, 2] (freshInit Unit ()))
    (freshInit Unit ())

/-- Harness: committed state after a single epoch step from fresh at
accuracy 0. -/
def stepZero : LoopState Unit :=
  okState (epochStep envZero 0 (freshInit Unit ())) (freshInit Unit ())

/-- Harness: a checkpoint with a distinctive optimizer state (learning
rate 1, nine optimizer steps taken) to resume from. -/
def resumeCk : Checkpoint Unit :=
  { epoch := 5, epochs_since_improvement := 2, accuracy := 7, encoder := (),
    encoder_optimizer := { lrs := [1], internal := 9 }, is_best := false }

/-- The stored `avg` field of a meter equals `sum / count`. -/
def MeterInv (m : AverageMeter) : Prop := m.avg = m.sum / m.count

/-- The decay condition checked at the top of an epoch iteration. -/
def decayCond {P : Type} (s : LoopState P) : Prop :=
  0 < s.epochs_since_improvement ∧
    s.epochs_since_improvement % adjust_lr_after_epoch = 0

instance {P : Type} (s : LoopState P) : Decidable (decayCond s) :=
  inferInstanceAs (Decidable (_ ∧ _))

/-- Whether a top-of-iteration counter value fires the decay check. -/
def firesDecay (c : ℕ) : Bool :=
  decide (0 < c) && decide (c % adjust_lr_after_epoch = 0)

/-! ## Pass-level lemmas -/

lemma meterInv_init : MeterInv AverageMeter.init := by
  simp [MeterInv, AverageMeter.init]

lemma meterInv_update (m : AverageMeter) (v n : R) : MeterInv (m.update v n) := rfl

lemma validateBatch_gradStep {P : Type} (nm : Numerics P) (g : P → Batch → P) :
    validateBatch { nm with gradStep := g } = validateBatch nm := rfl

lemma validate_foldl {P : Type} (nm : Numerics P) (bs : List Batch) :
    ∀ s : PassState P,
      (bs.foldl (validateBatch nm) s).encoder = s.encoder ∧
      (bs.foldl (validateBatch nm) s).accs.sum
        = s.accs.sum + (valAccValues nm s.encoder bs).sum ∧
      (bs.foldl (validateBatch nm) s).accs.count = s.accs.count + bs.length ∧
      (bs.foldl (validateBatch nm) s).losses.sum
        = s.losses.sum + (valLossValues nm s.encoder bs).sum ∧
      (bs.foldl (validateBatch nm) s).losses.count = s.losses.count + bs.length := by
  induction bs with
  | nil => intro s; simp [valAccValues, valLossValues]
  | cons b bs ih =>
    intro s
    obtain ⟨he, has, hac, hls, hlc⟩ := ih (validateBatch nm s b)
    refine ⟨?_, ?_, ?_, ?_, ?_⟩
    · rw [List.foldl_cons, he]
      rfl
    · rw [List.foldl_cons, has]
      simp [validateBatch, AverageMeter.update, valAccValues]
      ring
    · rw [List.foldl_cons, hac]
      simp [validateBatch, AverageMeter.update]
      ring
    · rw [List.foldl_cons, hls]
      simp [validateBatch, AverageMeter.update, valLossValues]
      ring
    · rw [List.foldl_cons, hlc]
      simp [validateBatch, AverageMeter.update]
      ring

lemma validate_meterInv {P : Type} (nm : Numerics P) (bs : List Batch) :
    ∀ s : PassState P, MeterInv s.accs → MeterInv s.losses →
      MeterInv ((bs.foldl (validateBatch nm) s).accs) ∧
      MeterInv ((bs.foldl (validateBatch nm) s).losses) := by
  induction bs with
  | nil => intro s h1 h2; exact ⟨h1, h2⟩
  | cons b bs ih =>
    intro s _ _
    exact ih (validateBatch nm s b) (meterInv_update _ _ _) (meterInv_update _ _ _)

lemma train_foldl {P : Type} (nm : Numerics P) (bs : List Batch) :
    ∀ s : PassState P,
      (bs.foldl (trainBatch nm) s).accs.sum
        = s.accs.sum + (trainAccValues nm s.encoder bs).sum ∧
      (bs.foldl (trainBatch nm) s).accs.count = s.accs.count + bs.length ∧
      (bs.foldl (trainBatch nm) s).losses.sum
        = s.losses.sum + (trainLossValues nm s.encoder bs).sum ∧
      (bs.foldl (trainBatch nm) s).losses.count = s.losses.count + bs.length := by
  induction bs with
  | nil => intro s; simp [trainAccValues, trainLossValues]
  | cons b bs ih =>
    intro s
    obtain ⟨has, hac, hls, hlc⟩ := ih (trainBatch nm s b)
    refine ⟨?_, ?_, ?_, ?_⟩
    · rw [List.foldl_cons, has]
      simp [trainBatch, AverageMeter.update, trainAccValues]
      ring
    · rw [List.foldl_cons, hac]
      simp [trainBatch, AverageMeter.update]
      ring
    · rw [List.foldl_cons, hls]
      simp [trainBatch, AverageMeter.update, trainLossValues]
      ring
    · rw [List.foldl_cons, hlc]
      simp [trainBatch, AverageMeter.update]
      ring

lemma train_meterInv {P : Type} (nm : Numerics P) (bs : List Batch) :
    ∀ s : PassState P, MeterInv s.accs → MeterInv s.losses →
      MeterInv ((bs.foldl (trainBatch nm) s).accs) ∧
      MeterInv ((bs.foldl (trainBatch nm) s).losses) := by
  induction bs with
  | nil => intro s h1 h2; exact ⟨h1, h2⟩
  | cons b bs ih =>
    intro s _ _
    exact ih (trainBatch nm s b) (meterInv_update _ _ _) (meterInv_update _ _ _)

/-! ## Loop-level lemmas -/

lemma decayPhase_eq {P : Type} (e : ℕ) (s : LoopState P) :
    decayPhase e s =
      if decayCond s then
        { s with encoder_optimizer := adjust_learning_rate s.encoder_optimizer (0.8 : R),
                 decays := s.decays ++ [e] }
      else s := rfl

lemma decayPhase_counter {P : Type} (e : ℕ) (s : LoopState P) :
    (decayPhase e s).epochs_since_improvement = s.epochs_since_improvement := by
  rw [decayPhase_eq]; split <;> rfl

lemma decayPhase_best {P : Type} (e : ℕ) (s : LoopState P) :
    (decayPhase e s).best_acc = s.best_acc := by
  rw [decayPhase_eq]; split <;> rfl

lemma decayPhase_saved {P : Type} (e : ℕ) (s : LoopState P) :
    (decayPhase e s).saved = s.saved := by
  rw [decayPhase_eq]; split <;> rfl

lemma decayPhase_trained {P : Type} (e : ℕ) (s : LoopState P) :
    (decayPhase e s).trained = s.trained := by
  rw [decayPhase_eq]; split <;> rfl

lemma decayPhase_decays {P : Type} (e : ℕ) (s : LoopState P) :
    (decayPhase e s).decays =
      if decayCond s then s.decays ++ [e] else s.decays := by
  rw [decayPhase_eq]; split <;> rfl

lemma afterValidate_counter {P : Type} (e : ℕ) (s2 : LoopState P) (a : R) :
    (afterValidate e s2 a).epochs_since_improvement =
      if s2.best_acc < a then 0 else s2.epochs_since_improvement + 1 := by
  simp [afterValidate]

lemma afterValidate_best {P : Type} (e : ℕ) (s2 : LoopState P) (a : R) :
    (afterValidate e s2 a).best_acc = max a s2.best_acc := rfl

lemma afterValidate_saved {P : Type} (e : ℕ) (s2 : LoopState P) (a : R) :
    (afterValidate e s2 a).saved = s2.saved ++
      [{ epoch := e,
         epochs_since_improvement := if s2.best_acc < a then 0
           else s2.epochs_since_improvement + 1,
         accuracy := a, encoder := s2.encoder,
         encoder_optimizer := s2.encoder_optimizer,
         is_best := decide (s2.best_acc < a) }] := by
  simp [afterValidate]

lemma afterValidate_decays {P : Type} (e : ℕ) (s2 : LoopState P) (a : R) :
    (afterValidate e s2 a).decays = s2.decays := rfl

lemma afterValidate_trained {P : Type} (e : ℕ) (s2 : LoopState P) (a : R) :
    (afterValidate e s2 a).trained = s2.trained := rfl

lemma epochStep_fail1 {P : Type} {env : EpochEnv P} {e : ℕ} {s : LoopState P}
    {err : Err}
    (hT : env.trainPass e (decayPhase e s).encoder
      (decayPhase e s).encoder_optimizer = .error err) :
    epochStep env e s = .error (err, decayPhase e s) := by
  simp [epochStep, hT]

lemma epochStep_fail2 {P : Type} {env : EpochEnv P} {e : ℕ} {s : LoopState P}
    {p : P} {opt : Optimizer} {err : Err}
    (hT : env.trainPass e (decayPhase e s).encoder
      (decayPhase e s).encoder_optimizer = .ok (p, opt))
    (hV : env.valAcc e p = .error err) :
    epochStep env e s = .error (err, afterTrain e (decayPhase e s) p opt) := by
  simp [epochStep, hT, hV]

lemma epochStep_ok_eq {P : Type} {env : EpochEnv P} {e : ℕ} {s : LoopState P}
    {p : P} {opt : Optimizer} {a : R}
    (hT : env.trainPass e (decayPhase e s).encoder
      (decayPhase e s).encoder_optimizer = .ok (p, opt))
    (hV : env.valAcc e p = .ok a) :
    epochStep env e s =
      .ok (afterValidate e (afterTrain e (decayPhase e s) p opt) a) := by
  simp [epochStep, hT, hV]

lemma epochStep_ok_inv {P : Type} {env : EpochEnv P} {e : ℕ}
    {s s' : LoopState P} (h : epochStep env e s = .ok s') :
    ∃ p opt a,
      env.trainPass e (decayPhase e s).encoder
          (decayPhase e s).encoder_optimizer = .ok (p, opt) ∧
      env.valAcc e p = .ok a ∧
      s' = afterValidate e (afterTrain e (decayPhase e s) p opt) a := by
  cases hT : env.trainPass e (decayPhase e s).encoder
      (decayPhase e s).encoder_optimizer with
  | error err => rw [epochStep_fail1 hT] at h; exact absurd h (by simp)
  | ok po =>
    obtain ⟨p, opt⟩ := po
    cases hV : env.valAcc e p with
    | error err => rw [epochStep_fail2 hT hV] at h; exact absurd h (by simp)
    | ok a =>
      rw [epochStep_ok_eq hT hV] at h
      exact ⟨p, opt, a, rfl, hV, ((Except.ok.injEq _ _).mp h).symm⟩

lemma runEpochs_nil {P : Type} (env : EpochEnv P) (s : LoopState P) :
    runEpochs env [] s = .ok s := rfl

lemma runEpochs_cons_break {P : Type} (env : EpochEnv P) (e : ℕ) (rest : List ℕ)
    (s : LoopState P) (h : s.epochs_since_improvement = 20) :
    runEpochs env (e :: rest) s = .ok s := by
  simp [runEpochs, h]

lemma runEpochs_cons_go {P : Type} (env : EpochEnv P) (e : ℕ) (rest : List ℕ)
    (s s1 : LoopState P) (h : s.epochs_since_improvement ≠ 20)
    (hs : epochStep env e s = .ok s1) :
    runEpochs env (e :: rest) s = runEpochs env rest s1 := by
  simp [runEpochs, h, hs]

lemma runEpochs_cons_fail {P : Type} (env : EpochEnv P) (e : ℕ) (rest : List ℕ)
    (s : LoopState P) (f : Err × LoopState P)
    (h : s.epochs_since_improvement ≠ 20)
    (hs : epochStep env e s = .error f) :
    runEpochs env (e :: rest) s = .error f := by
  simp [runEpochs, h, hs]

lemma afterTrain_counter {P : Type} (e : ℕ) (s1 : LoopState P) (p : P)
    (opt : Optimizer) :
    (afterTrain e s1 p opt).epochs_since_improvement
      = s1.epochs_since_improvement := rfl

lemma afterTrain_best {P : Type} (e : ℕ) (s1 : LoopState P) (p : P)
    (opt : Optimizer) : (afterTrain e s1 p opt).best_acc = s1.best_acc := rfl

lemma afterTrain_saved {P : Type} (e : ℕ) (s1 : LoopState P) (p : P)
    (opt : Optimizer) : (afterTrain e s1 p opt).saved = s1.saved := rfl

lemma afterTrain_decays {P : Type} (e : ℕ) (s1 : LoopState P) (p : P)
    (opt : Optimizer) : (afterTrain e s1 p opt).decays = s1.decays := rfl

lemma afterTrain_trained {P : Type} (e : ℕ) (s1 : LoopState P) (p : P)
    (opt : Optimizer) :
    (afterTrain e s1 p opt).trained
      = s1.trained ++ [(e, s1.epochs_since_improvement)] := rfl

lemma stepState_counter {P : Type} (e : ℕ) (s : LoopState P) (p : P)
    (opt : Optimizer) (a : R) :
    (afterValidate e (afterTrain e (decayPhase e s) p opt) a).epochs_since_improvement
      = if s.best_acc < a then 0 else s.epochs_since_improvement + 1 := by
  rw [afterValidate_counter, afterTrain_best, afterTrain_counter,
    decayPhase_best, decayPhase_counter]

lemma stepState_best {P : Type} (e : ℕ) (s : LoopState P) (p : P)
    (opt : Optimizer) (a : R) :
    (afterValidate e (afterTrain e (decayPhase e s) p opt) a).best_acc
      = max a s.best_acc := by
  rw [afterValidate_best, afterTrain_best, decayPhase_best]

lemma stepState_saved {P : Type} (e : ℕ) (s : LoopState P) (p : P)
    (opt : Optimizer) (a : R) :
    (afterValidate e (afterTrain e (decayPhase e s) p opt) a).saved
      = s.saved ++
        [{ epoch := e,
           epochs_since_improvement := if s.best_acc < a then 0
             else s.epochs_since_improvement + 1,
           accuracy := a, encoder := p, encoder_optimizer := opt,
           is_best := decide (s.best_acc < a) }] := by
  rw [afterValidate_saved, afterTrain_saved, decayPhase_saved]
  simp [afterTrain, decayPhase_best, decayPhase_counter]

lemma stepState_trained {P : Type} (e : ℕ) (s : LoopState P) (p : P)
    (opt : Optimizer) (a : R) :
    (afterValidate e (afterTrain e (decayPhase e s) p opt) a).trained
      = s.trained ++ [(e, s.epochs_since_improvement)] := by
  rw [afterValidate_trained, afterTrain_trained, decayPhase_trained,
    decayPhase_counter]

lemma stepState_decays {P : Type} (e : ℕ) (s : LoopState P) (p : P)
    (opt : Optimizer) (a : R) :
    (afterValidate e (afterTrain e (decayPhase e s) p opt) a).decays
      = if decayCond s then s.decays ++ [e] else s.decays := by
  rw [afterValidate_decays, afterTrain_decays, decayPhase_decays]

/-- If the validation accuracy never exceeds the current best, the loop
trains at most `20 - counter` further epochs before the early stop. -/
lemma runEpochs_stagnant_bound {P : Type} (env : EpochEnv P) :
    ∀ (es : List ℕ) (s s' : LoopState P),
      s.epochs_since_improvement ≤ 20 →
      (∀ e q a, env.valAcc e q = .ok a → a ≤ s.best_acc) →
      runEpochs env es s = .ok s' →
      s'.trained.length ≤ s.trained.length + (20 - s.epochs_since_improvement) := by
  intro es
  induction es with
  | nil =>
    intro s s' _ _ h
    rw [runEpochs_nil] at h
    cases h
    omega
  | cons e rest ih =>
    intro s s' hle hstag h
    by_cases h20 : s.epochs_since_improvement = 20
    · rw [runEpochs_cons_break env e rest s h20] at h
      cases h
      omega
    · cases hs : epochStep env e s with
      | error f =>
        rw [runEpochs_cons_fail env e rest s f h20 hs] at h
        exact absurd h (by simp)
      | ok s1 =>
        rw [runEpochs_cons_go env e rest s s1 h20 hs] at h
        obtain ⟨p, opt, a, hT, hV, rfl⟩ := epochStep_ok_inv hs
        have hna : ¬ s.best_acc < a := not_lt.mpr (hstag e p a hV)
        have hc1 : (afterValidate e (afterTrain e (decayPhase e s) p opt)
            a).epochs_since_improvement = s.epochs_since_improvement + 1 := by
          rw [stepState_counter]; simp [hna]
        have hb1 : (afterValidate e (afterTrain e (decayPhase e s) p opt)
            a).best_acc = s.best_acc := by
          rw [stepState_best]; exact max_eq_right (hstag e p a hV)
        have ht1 := stepState_trained e s p opt a
        have := ih _ s' (by omega) (by rw [hb1]; exact hstag) h
        rw [hc1, ht1] at this
        simp only [List.length_append, List.length_cons, List.length_nil] at this
        omega

/-- The stagnation counter moves by at most one per completed epoch and,
starting from a state within the patience bound, every reachable committed
state, every saved checkpoint's counter, and every trained epoch's
top-of-iteration counter stay within it. -/
lemma runEpochs_counter_inv {P : Type} (env : EpochEnv P) :
    ∀ (es : List ℕ) (s s' : LoopState P),
      s.epochs_since_improvement ≤ 20 →
      (∀ c ∈ s.saved, c.epochs_since_improvement ≤ 20) →
      (∀ t ∈ s.trained, t.2 < 20) →
      runEpochs env es s = .ok s' →
      s'.epochs_since_improvement ≤ 20 ∧
      (∀ c ∈ s'.saved, c.epochs_since_improvement ≤ 20) ∧
      (∀ t ∈ s'.trained, t.2 < 20) := by
  intro es
  induction es with
  | nil =>
    intro s s' h1 h2 h3 h
    rw [runEpochs_nil] at h
    cases h
    exact ⟨h1, h2, h3⟩
  | cons e rest ih =>
    intro s s' h1 h2 h3 h
    by_cases h20 : s.epochs_since_improvement = 20
    · rw [runEpochs_cons_break env e rest s h20] at h
      cases h
      exact ⟨h1, h2, h3⟩
    · cases hs : epochStep env e s with
      | error f =>
        rw [runEpochs_cons_fail env e rest s f h20 hs] at h
        exact absurd h (by simp)
      | ok s1 =>
        rw [runEpochs_cons_go env e rest s s1 h20 hs] at h
        obtain ⟨p, opt, a, hT, hV, rfl⟩ := epochStep_ok_inv hs
        refine ih _ s' ?_ ?_ ?_ h
        · rw [stepState_counter]
          split <;> omega
        · rw [stepState_saved]
          intro c hc
          rcases List.mem_append.mp hc with hc | hc
          · exact h2 c hc
          · rcases List.mem_singleton.mp hc with rfl
            simp only
            split <;> omega
        · rw [stepState_trained]
          intro t ht
          rcases List.mem_append.mp ht with ht | ht
          · exact h3 t ht
          · rcases List.mem_singleton.mp ht with rfl
            simp only
            omega

lemma firesDecay_iff {P : Type} (s : LoopState P) :
    firesDecay s.epochs_since_improvement = true ↔ decayCond s := by
  simp [firesDecay, decayCond]

/-- Along any committed run, the decay log is exactly the epochs whose
top-of-iteration counter was positive and divisible by
`adjust_lr_after_epoch`. -/
lemma runEpochs_decay_inv {P : Type} (env : EpochEnv P) :
    ∀ (es : List ℕ) (s s' : LoopState P),
      s.decays = (s.trained.filter fun t => firesDecay t.2).map Prod.fst →
      runEpochs env es s = .ok s' →
      s'.decays = (s'.trained.filter fun t => firesDecay t.2).map Prod.fst := by
  intro es
  induction es with
  | nil =>
    intro s s' hInv h
    rw [runEpochs_nil] at h
    cases h
    exact hInv
  | cons e rest ih =>
    intro s s' hInv h
    by_cases h20 : s.epochs_since_improvement = 20
    · rw [runEpochs_cons_break env e rest s h20] at h
      cases h
      exact hInv
    · cases hs : epochStep env e s with
      | error f =>
        rw [runEpochs_cons_fail env e rest s f h20 hs] at h
        exact absurd h (by simp)
      | ok s1 =>
        rw [runEpochs_cons_go env e rest s s1 h20 hs] at h
        obtain ⟨p, opt, a, hT, hV, rfl⟩ := epochStep_ok_inv hs
        refine ih _ s' ?_ h
        rw [stepState_decays, stepState_trained, List.filter_append,
          List.map_append, hInv]
        by_cases hd : decayCond s
        · have hf : firesDecay s.epochs_since_improvement = true :=
            (firesDecay_iff s).mpr hd
          simp [hd, hf]
        · have hf : ¬ firesDecay s.epochs_since_improvement = true :=
            fun hc => hd ((firesDecay_iff s).mp hc)
          simp [hd, hf]

/-- Along any committed run, the accuracies of the `is_best` checkpoints
are strictly increasing and all bounded by the current best. -/
lemma runEpochs_best_inv {P : Type} (env : EpochEnv P) :
    ∀ (es : List ℕ) (s s' : LoopState P),
      (bestSlotAccs s.saved).Pairwise (· < ·) →
      (∀ x ∈ bestSlotAccs s.saved, x ≤ s.best_acc) →
      runEpochs env es s = .ok s' →
      (bestSlotAccs s'.saved).Pairwise (· < ·) ∧
      (∀ x ∈ bestSlotAccs s'.saved, x ≤ s'.best_acc) := by
  intro es
  induction es with
  | nil =>
    intro s s' h1 h2 h
    rw [runEpochs_nil] at h
    cases h
    exact ⟨h1, h2⟩
  | cons e rest ih =>
    intro s s' h1 h2 h
    by_cases h20 : s.epochs_since_improvement = 20
    · rw [runEpochs_cons_break env e rest s h20] at h
      cases h
      exact ⟨h1, h2⟩
    · cases hs : epochStep env e s with
      | error f =>
        rw [runEpochs_cons_fail env e rest s f h20 hs] at h
        exact absurd h (by simp)
      | ok s1 =>
        rw [runEpochs_cons_go env e rest s s1 h20 hs] at h
        obtain ⟨p, opt, a, hT, hV, rfl⟩ := epochStep_ok_inv hs
        refine ih _ s' ?_ ?_ h
        · rw [stepState_saved]
          unfold bestSlotAccs
          rw [List.filter_append, List.map_append]
          by_cases hb : s.best_acc < a
          · rw [List.pairwise_append]
            refine ⟨h1, by simp [hb], ?_⟩
            intro x hx y hy
            simp [hb] at hy
            subst hy
            exact lt_of_le_of_lt (h2 x hx) hb
          · simpa [hb] using h1
        · rw [stepState_saved, stepState_best]
          unfold bestSlotAccs
          rw [List.filter_append, List.map_append]
          intro x hx
          by_cases hb : s.best_acc < a
          · rcases List.mem_append.mp hx with hx | hx
            · exact le_trans (h2 x hx)
                (le_trans (le_of_lt hb) (le_max_left a s.best_acc))
            · simp [hb] at hx
              rw [hx]
              exact le_max_left a s.best_acc
          · rcases List.mem_append.mp hx with hx | hx
            · exact le_trans (h2 x hx) (le_max_right a s.best_acc)
            · simp [hb] at hx

lemma decayPhase_fresh (P : Type) (p0 : P) (e : ℕ) :
    decayPhase e (freshInit P p0) = freshInit P p0 := by
  rw [decayPhase_eq]
  simp [decayCond, freshInit]

/-! ## Claim theorems: the epoch loop -/

/-- C1: when `epochs_since_improvement` equals the patience limit 20 at
the top of an epoch iteration, the loop terminates at once with the state
unchanged — no decay, no training, no checkpoint, then or later; and from
any in-bound state whose best is never again exceeded, at most
`20 - counter` further epochs are ever trained. -/
theorem early_stop_at_patience :
    (∀ (P : Type) (env : EpochEnv P) (e : ℕ) (rest : List ℕ)
        (s : LoopState P),
      s.epochs_since_improvement = 20 → runEpochs env (e :: rest) s = .ok s) ∧
    (∀ (P : Type) (env : EpochEnv P) (es : List ℕ) (s s' : LoopState P),
      s.epochs_since_improvement ≤ 20 →
      (∀ e q a, env.valAcc e q = .ok a → a ≤ s.best_acc) →
      runEpochs env es s = .ok s' →
      s'.trained.length
        ≤ s.trained.length + (20 - s.epochs_since_improvement)) :=
  ⟨fun _ env e rest s h => runEpochs_cons_break env e rest s h,
   fun _ env es s s' h1 h2 h3 => runEpochs_stagnant_bound env es s s' h1 h2 h3⟩

/-- Witness for C1 at concrete inputs: a counter-20 state passes through a
run untouched, and a fresh never-improving three-epoch run trains at most
20 epochs. -/
theorem early_stop_at_patience_witness :
    runEpochs envZero [5] stopState = .ok stopState ∧
    runZeroThree.trained.length
      ≤ (freshInit Unit ()).trained.length
        + (20 - (freshInit Unit ()).epochs_since_improvement) := by
  constructor
  · exact early_stop_at_patience.1 Unit envZero 5 [] stopState rfl
  · refine early_stop_at_patience.2 Unit envZero [0, 1, 2]
      (freshInit Unit ()) runZeroThree (by decide) ?_ rfl
    intro e q a h
    have ha : (0 : R) = a := by simpa [envZero, constEnv] using h
    rw [← ha]
    exact le_refl 0

/-- C2: the decay of the learning rate (every parameter group multiplied
by the factor, internal optimizer state untouched) is invoked in a trained
epoch exactly when the top-of-iteration counter is positive and divisible
by `adjust_lr_after_epoch = 4` — so for counter values 4, 8, 12, … and
never right after an improvement or at non-multiples. -/
theorem decay_fires_on_stagnation_multiples :
    (∀ (opt : Optimizer) (factor : R),
      (adjust_learning_rate opt factor).lrs = opt.lrs.map (· * factor) ∧
      (adjust_learning_rate opt factor).internal = opt.internal) ∧
    (∀ (c : ℕ), firesDecay c = true ↔ 0 < c ∧ c % adjust_lr_after_epoch = 0) ∧
    (∀ (P : Type) (p0 : P) (env : EpochEnv P) (es : List ℕ)
        (s' : LoopState P),
      runEpochs env es (freshInit P p0) = .ok s' →
      s'.decays = (s'.trained.filter fun t => firesDecay t.2).map Prod.fst) := by
  refine ⟨fun opt factor => ⟨rfl, rfl⟩, fun c => by simp [firesDecay], ?_⟩
  intro P p0 env es s' h
  exact runEpochs_decay_inv env es (freshInit P p0) s' (by simp [freshInit]) h

/-- Witness for C2: in the full fresh ten-epoch stagnant run the decay log
matches the counter-multiples of its trained epochs (concretely epochs 4
and 8). -/
theorem decay_fires_on_stagnation_multiples_witness :
    runZeroFull.decays
      = (runZeroFull.trained.filter fun t => firesDecay t.2).map Prod.fst :=
  decay_fires_on_stagnation_multiples.2.2 Unit () envZero
    (epochList start_epoch) runZeroFull rfl

/-- C3: after a completed validate pass returning average `a`, the epoch
commits with `is_best = a > best_acc`; on improvement the best becomes `a`
and the counter resets to 0, otherwise the best is unchanged and the
counter increments by exactly 1 (equality is no improvement), and the
saved checkpoint carries exactly those values. -/
theorem improvement_decision (P : Type) (env : EpochEnv P) (e : ℕ)
    (s : LoopState P) (p : P) (opt : Optimizer) (a : R)
    (hT : env.trainPass e (decayPhase e s).encoder
      (decayPhase e s).encoder_optimizer = .ok (p, opt))
    (hV : env.valAcc e p = .ok a) :
    epochStep env e s
      = .ok (afterValidate e (afterTrain e (decayPhase e s) p opt) a) ∧
    (s.best_acc < a →
      (afterValidate e (afterTrain e (decayPhase e s) p opt) a).best_acc = a ∧
      (afterValidate e (afterTrain e (decayPhase e s) p opt)
        a).epochs_since_improvement = 0) ∧
    (¬ s.best_acc < a →
      (afterValidate e (afterTrain e (decayPhase e s) p opt) a).best_acc
        = s.best_acc ∧
      (afterValidate e (afterTrain e (decayPhase e s) p opt)
        a).epochs_since_improvement = s.epochs_since_improvement + 1) ∧
    (afterValidate e (afterTrain e (decayPhase e s) p opt) a).saved
      = s.saved ++
        [{ epoch := e,
           epochs_since_improvement := if s.best_acc < a then 0
             else s.epochs_since_improvement + 1,
           accuracy := a, encoder := p, encoder_optimizer := opt,
           is_best := decide (s.best_acc < a) }] := by
  refine ⟨epochStep_ok_eq hT hV, ?_, ?_, stepState_saved e s p opt a⟩
  · intro hb
    rw [stepState_best, stepState_counter]
    exact ⟨max_eq_left (le_of_lt hb), by simp [hb]⟩
  · intro hb
    rw [stepState_best, stepState_counter]
    exact ⟨max_eq_right (not_lt.mp hb), by simp [hb]⟩

/-- Witness for C3: one concrete epoch step from the fresh state at
validation accuracy 0. -/
theorem improvement_decision_witness :
    epochStep envZero 0 (freshInit Unit ())
      = .ok (afterValidate 0
          (afterTrain 0 (decayPhase 0 (freshInit Unit ())) ()
            (freshAdam encoder_lr)) 0) :=
  (improvement_decision Unit envZero 0 (freshInit Unit ()) ()
    (freshAdam encoder_lr) 0 rfl rfl).1

/-- C4 counterexample: the claim says a fresh run starts with
`best_metric = −infinity` so that the first epoch is always an
improvement; in the code `best_acc` starts at `0.`, and a first epoch
whose validation accuracy average is 0 is recorded as *no* improvement
(`is_best = False`, counter 1). -/
theorem fresh_start_counterexample :
    (freshInit Unit ()).best_acc = 0 ∧
    runEpochs envZero [0] (freshInit Unit ()) = .ok runZeroOne ∧
    runZeroOne.saved.map (fun c => c.is_best) = [false] ∧
    runZeroOne.epochs_since_improvement = 1 :=
  ⟨rfl, rfl, rfl, rfl⟩

/-- C4 (amended): a fresh run begins with `start_epoch = 0`,
`epochs_since_improvement = 0` and `best_acc = 0.` (not −infinity), so the
first epoch's validation accuracy is recorded as an improvement iff it is
strictly positive. -/
theorem fresh_start_initialization (P : Type) (p0 : P) (env : EpochEnv P)
    (e : ℕ) (p : P) (opt : Optimizer) (a : R)
    (hT : env.trainPass e (freshInit P p0).encoder
      (freshInit P p0).encoder_optimizer = .ok (p, opt))
    (hV : env.valAcc e p = .ok a) :
    start_epoch = 0 ∧
    (freshInit P p0).epochs_since_improvement = 0 ∧
    (freshInit P p0).best_acc = 0 ∧
    epochStep env e (freshInit P p0)
      = .ok (afterValidate e (afterTrain e (freshInit P p0) p opt) a) ∧
    (afterValidate e (afterTrain e (freshInit P p0) p opt) a).saved.map
        (fun c => c.is_best) = [decide ((0 : R) < a)] ∧
    (afterValidate e (afterTrain e (freshInit P p0) p opt)
      a).epochs_since_improvement = if (0 : R) < a then 0 else 1 := by
  have hfd := decayPhase_fresh P p0 e
  have hT' : env.trainPass e (decayPhase e (freshInit P p0)).encoder
      (decayPhase e (freshInit P p0)).encoder_optimizer = .ok (p, opt) := by
    rw [hfd]; exact hT
  refine ⟨rfl, rfl, rfl, ?_, ?_, ?_⟩
  · have h := epochStep_ok_eq hT' hV
    rw [hfd] at h
    exact h
  · rw [afterValidate_saved]
    simp [afterTrain, freshInit, best_acc_initial]
  · rw [afterValidate_counter]
    simp [afterTrain, freshInit, best_acc_initial]

/-- Witness for C4's amended statement: first epoch of a fresh run at
validation accuracy 0. -/
theorem fresh_start_initialization_witness :
    start_epoch = 0 ∧
    (freshInit Unit ()).epochs_since_improvement = 0 ∧
    (freshInit Unit ()).best_acc = 0 ∧
    epochStep envZero 0 (freshInit Unit ())
      = .ok (afterValidate 0
          (afterTrain 0 (freshInit Unit ()) () (freshAdam encoder_lr)) 0) ∧
    (afterValidate 0 (afterTrain 0 (freshInit Unit ()) ()
        (freshAdam encoder_lr)) 0).saved.map (fun c => c.is_best)
      = [decide ((0 : R) < 0)] ∧
    (afterValidate 0 (afterTrain 0 (freshInit Unit ()) ()
        (freshAdam encoder_lr)) 0).epochs_since_improvement
      = if (0 : R) < 0 then 0 else 1 :=
  fresh_start_initialization Unit () envZero 0 () (freshAdam encoder_lr) 0
    rfl rfl

/-- C5 counterexample: the claim says the optimizer state from the
checkpoint is the one used for resumed training; in the code the loaded
`encoder_optimizer` is immediately shadowed by a freshly constructed
`torch.optim.Adam(..., lr=encoder_lr)`, so a checkpoint whose optimizer
state differs from a fresh Adam is not the optimizer the resumed run
uses. -/
theorem resume_counterexample :
    (resumeInit resumeCk).2.encoder_optimizer ≠ resumeCk.encoder_optimizer := by
  intro h
  have h9 := congrArg Optimizer.internal h
  simp [resumeInit, resumeCk, freshAdam] at h9

/-- C5 (amended): resuming restores the start epoch as checkpoint epoch
plus one and copies `epochs_since_improvement`, `best_acc` and the encoder
parameters verbatim from the checkpoint, but the optimizer is re-created
fresh (`Adam` at `encoder_lr`, fresh internal state), discarding the
checkpoint's optimizer state; the loop then iterates
`range(checkpoint_epoch + 1, epochs)` from that state. -/
theorem resume_restores_state (P : Type) (ck : Checkpoint P)
    (env : EpochEnv P) :
    (resumeInit ck).1 = ck.epoch + 1 ∧
    (resumeInit ck).2.epochs_since_improvement
      = ck.epochs_since_improvement ∧
    (resumeInit ck).2.best_acc = ck.accuracy ∧
    (resumeInit ck).2.encoder = ck.encoder ∧
    (resumeInit ck).2.encoder_optimizer = freshAdam encoder_lr ∧
    mainResume ck env
      = runEpochs env (epochList (ck.epoch + 1)) (resumeInit ck).2 :=
  ⟨rfl, rfl, rfl, rfl, rfl, rfl⟩

/-- C6: the spec-modelled store writes the best slot exactly for `is_best`
checkpoints, and along any committed fresh run the accuracies carried by
the `is_best` checkpoints are strictly increasing (hence the best slot's
stored accuracy is non-decreasing across saves). -/
theorem best_slot_accuracy_monotone :
    (∀ (P : Type) (st : Store P) (c : Checkpoint P),
      (Store.save st c).latest = some c ∧
      (Store.save st c).best = if c.is_best then some c else st.best) ∧
    (∀ (P : Type) (p0 : P) (env : EpochEnv P) (es : List ℕ)
        (s' : LoopState P),
      runEpochs env es (freshInit P p0) = .ok s' →
      (bestSlotAccs s'.saved).Pairwise (· < ·)) := by
  refine ⟨fun P st c => ⟨rfl, rfl⟩, ?_⟩
  intro P p0 env es s' h
  exact (runEpochs_best_inv env es (freshInit P p0) s'
    (by simp [freshInit, bestSlotAccs]) (by simp [freshInit, bestSlotAccs])
    h).1

/-- Witness for C6: a fresh three-epoch run with rising accuracy writes a
strictly increasing best-slot sequence. -/
theorem best_slot_accuracy_monotone_witness :
    (bestSlotAccs runRisingThree.saved).Pairwise (· < ·) :=
  best_slot_accuracy_monotone.2 Unit () envRising [0, 1, 2] runRisingThree
    rfl

/-- C8: an exception raised by the train or the validate pass of an epoch
is not caught: the run fails with that error, the remaining epochs never
run, and the checkpoint log is exactly what it was before the failed epoch
— no checkpoint is written for it. -/
theorem pass_failure_aborts_without_checkpoint (P : Type) (env : EpochEnv P)
    (e : ℕ) (rest : List ℕ) (s : LoopState P)
    (h20 : s.epochs_since_improvement ≠ 20) :
    (∀ err, env.trainPass e (decayPhase e s).encoder
        (decayPhase e s).encoder_optimizer = .error err →
      runEpochs env (e :: rest) s = .error (err, decayPhase e s) ∧
      (decayPhase e s).saved = s.saved) ∧
    (∀ (p : P) (opt : Optimizer) (err : Err),
      env.trainPass e (decayPhase e s).encoder
        (decayPhase e s).encoder_optimizer = .ok (p, opt) →
      env.valAcc e p = .error err →
      runEpochs env (e :: rest) s
        = .error (err, afterTrain e (decayPhase e s) p opt) ∧
      (afterTrain e (decayPhase e s) p opt).saved = s.saved) := by
  constructor
  · intro err hT
    exact ⟨runEpochs_cons_fail env e rest s _ h20 (epochStep_fail1 hT),
      decayPhase_saved e s⟩
  · intro p opt err hT hV
    refine ⟨runEpochs_cons_fail env e rest s _ h20 (epochStep_fail2 hT hV), ?_⟩
    rw [afterTrain_saved, decayPhase_saved]

/-- Witness for C8: a raising train pass and a raising validate pass, each
from the fresh state, abort the two-epoch run leaving the save log
empty. -/
theorem pass_failure_aborts_without_checkpoint_witness :
    (runEpochs envFailTrain [0, 1] (freshInit Unit ())
        = .error (3, decayPhase 0 (freshInit Unit ())) ∧
      (decayPhase 0 (freshInit Unit ())).saved = (freshInit Unit ()).saved) ∧
    (runEpochs envFailVal [0, 1] (freshInit Unit ())
        = .error (7, afterTrain 0 (decayPhase 0 (freshInit Unit ())) ()
            (freshAdam encoder_lr)) ∧
      (afterTrain 0 (decayPhase 0 (freshInit Unit ())) ()
          (freshAdam encoder_lr)).saved = (freshInit Unit ()).saved) :=
  ⟨(pass_failure_aborts_without_checkpoint Unit envFailTrain 0 [1]
      (freshInit Unit ()) (by decide)).1 3 rfl,
   (pass_failure_aborts_without_checkpoint Unit envFailVal 0 [1]
      (freshInit Unit ()) (by decide)).2 () (freshAdam encoder_lr) 7 rfl rfl⟩

/-- C9: the stagnation counter moves to 0 or up by exactly 1 per committed
epoch, and in a fresh run it never exceeds 20 — every committed state and
every saved checkpoint stays at counter ≤ 20, and every trained epoch
started below 20. -/
theorem counter_never_exceeds_patience :
    (∀ (P : Type) (env : EpochEnv P) (e : ℕ) (s s1 : LoopState P),
      epochStep env e s = .ok s1 →
      s1.epochs_since_improvement = 0 ∨
        s1.epochs_since_improvement = s.epochs_since_improvement + 1) ∧
    (∀ (P : Type) (p0 : P) (env : EpochEnv P) (es : List ℕ)
        (s' : LoopState P),
      runEpochs env es (freshInit P p0) = .ok s' →
      s'.epochs_since_improvement ≤ 20 ∧
      (∀ c ∈ s'.saved, c.epochs_since_improvement ≤ 20) ∧
      (∀ t ∈ s'.trained, t.2 < 20)) := by
  constructor
  · intro P env e s s1 h
    obtain ⟨p, opt, a, hT, hV, rfl⟩ := epochStep_ok_inv h
    rw [stepState_counter]
    split
    · exact Or.inl rfl
    · exact Or.inr rfl
  · intro P p0 env es s' h
    exact runEpochs_counter_inv env es (freshInit P p0) s'
      (by simp [freshInit]) (by simp [freshInit]) (by simp [freshInit]) h

/-- Witness for C9: a single committed step from fresh, and the full fresh
stagnant run, stay within the patience bound. -/
theorem counter_never_exceeds_patience_witness :
    (stepZero.epochs_since_improvement = 0 ∨
      stepZero.epochs_since_improvement
        = (freshInit Unit ()).epochs_since_improvement + 1) ∧
    (runZeroFull.epochs_since_improvement ≤ 20 ∧
      (∀ c ∈ runZeroFull.saved, c.epochs_since_improvement ≤ 20) ∧
      (∀ t ∈ runZeroFull.trained, t.2 < 20)) :=
  ⟨counter_never_exceeds_patience.1 Unit envZero 0 (freshInit Unit ())
     stepZero rfl,
   counter_never_exceeds_patience.2 Unit () envZero
     (epochList start_epoch) runZeroFull rfl⟩

/-! ## Claim theorems: the two passes -/

/-- C7: every batch of the validation pass is evaluated read-only — no
optimizer step and no mutation of any model parameter, so the encoder
parameters are identical before and after an entire validate pass, and the
pass result does not depend on the parameter-update capability at all. -/
theorem validate_is_read_only {P : Type} (nm : Numerics P) (g : P → Batch → P)
    (p : P) (bs : List Batch) :
    (validate nm p bs).encoder = p ∧
    validate { nm with gradStep := g } p bs = validate nm p bs := by
  constructor
  · exact (validate_foldl nm bs ⟨p, .init, .init⟩).1
  · unfold validate
    rw [validateBatch_gradStep]

/-- C10: the epoch-level loss and accuracy values — including the
validation accuracy average fed to the improvement decision — are
unweighted means over batches: every batch enters the meters with weight 1
regardless of how many examples it holds, so the epoch value is the mean
of the per-batch metrics, with the meter count equal to the number of
batches. -/
theorem epoch_metrics_are_batch_means {P : Type} (nm : Numerics P) (p : P)
    (bs : List Batch) :
    (validate nm p bs).accs.count = bs.length ∧
    (validate nm p bs).accs.avg = (valAccValues nm p bs).sum / bs.length ∧
    (validate nm p bs).losses.avg = (valLossValues nm p bs).sum / bs.length ∧
    (train nm p bs).accs.count = bs.length ∧
    (train nm p bs).accs.avg = (trainAccValues nm p bs).sum / bs.length ∧
    (train nm p bs).losses.avg = (trainLossValues nm p bs).sum / bs.length := by
  obtain ⟨-, has, hac, hls, hlc⟩ := validate_foldl nm bs ⟨p, .init, .init⟩
  obtain ⟨tas, tac, tls, tlc⟩ := train_foldl nm bs ⟨p, .init, .init⟩
  obtain ⟨hva, hvl⟩ :=
    validate_meterInv nm bs ⟨p, .init, .init⟩ meterInv_init meterInv_init
  obtain ⟨hta, htl⟩ :=
    train_meterInv nm bs ⟨p, .init, .init⟩ meterInv_init meterInv_init
  unfold MeterInv at hva hvl hta htl
  refine ⟨?_, ?_, ?_, ?_, ?_, ?_⟩
  · rw [validate, hac]
    simp [AverageMeter.init]
  · rw [validate, hva, has, hac]
    simp [AverageMeter.init]
  · rw [validate, hvl, hls, hlc]
    simp [AverageMeter.init]
  · rw [train, tac]
    simp [AverageMeter.init]
  · rw [train, hta, tas, tac]
    simp [AverageMeter.init]
  · rw [train, htl, tls, tlc]
    simp [AverageMeter.init]


end Tagger
